import Mathlib

/-!
Verification of the linker-set crate (src/src/lib.rs and src/proc/src/lib.rs).

Shallow embedding conventions:

* Addresses are modelled in units of elements of the element type T.
  Rust pointer arithmetic on a typed pointer is element-granular:
  next.add(1) advances by one element and stop.offset_from(next) yields
  the element distance, i.e. the byte distance already divided by
  size_of::<T>().  So the division by the element size performed by
  offset_from is implicit in the model: an address here is a byte address
  divided by the element size.
* The program memory is a total map mem : Nat -> T giving the element
  stored at each (element-granular) address.  The pointers handed to the
  constructors come from linker boundary symbols of static storage, so
  they are never null; dereferencing the cursor therefore reads mem at
  the cursor address.
* A Rust assertion failure or panic (assert!, try_into().unwrap(), slice
  bounds check) aborts the computation; fallible operations are modelled
  with Option, where none is the abort.
-/

set_option autoImplicit false

/-- Models isize -> usize conversion by try_into().unwrap() applied to a
pointer offset: panics (none) when the offset is negative, otherwise the
offset as a Nat. -/
def offsetToLen (off : Int) : Option Nat :=
  if off < 0 then none else some off.toNat

/-- Models struct LinkerSetIter<T> { next: *const T, stop: *const T }.
The two pointers are element-granular addresses. -/
structure LinkerSetIter where
  next : Nat
  stop : Nat
deriving DecidableEq, Repr

/-- Models LinkerSetIter::new: asserts start < stop, then stores the two
pointers.  The assertion failure is the none result. -/
def LinkerSetIter.new (start stop : Nat) : Option LinkerSetIter :=
  if start < stop then some ⟨start, stop⟩ else none

/-- Models Iterator::next for LinkerSetIter (one pull): if the cursor
equals stop, return None and leave the state unchanged; otherwise
dereference the cursor (as_ref on the non-null linker pointer yields the
element stored there) and advance the cursor by one element. -/
def LinkerSetIter.pull {T : Type} (it : LinkerSetIter) (mem : Nat → T) :
    Option T × LinkerSetIter :=
  if it.next = it.stop then (none, it)
  else (some (mem it.next), ⟨it.next + 1, it.stop⟩)

/-- Models ExactSizeIterator::len: stop.offset_from(next).try_into().unwrap().
The unwrap panic on a negative offset is the none result. -/
def LinkerSetIter.len (it : LinkerSetIter) : Option Nat :=
  offsetToLen ((it.stop : Int) - (it.next : Int))

/-- Models Iterator::count for LinkerSetIter: fn count(self) { self.len() }. -/
def LinkerSetIter.count (it : LinkerSetIter) : Option Nat :=
  it.len

/-- Models Iterator::size_hint for LinkerSetIter:
let len = self.len(); (len, Some(len)).  A panic inside len propagates. -/
def LinkerSetIter.size_hint (it : LinkerSetIter) : Option (Nat × Option Nat) :=
  match it.len with
  | some l => some (l, some l)
  | none => none

/-- The iterator state after n pulls (each pull is one call to next). -/
def LinkerSetIter.advance {T : Type} (it : LinkerSetIter) (mem : Nat → T) :
    Nat → LinkerSetIter
  | 0 => it
  | n + 1 => ((it.advance mem n).pull mem).2

/-- The address the unsafe dereference inside next reads on one pull of
this state, when it reads at all: in the else branch of next the cursor
itself is dereferenced. -/
def LinkerSetIter.readAddr (it : LinkerSetIter) : Option Nat :=
  if it.next = it.stop then none else some it.next

/-- Models std::slice::from_raw_parts(start, len): the list of the len
elements stored at start, start+1, ..., start+len-1. -/
def fromRawParts {T : Type} (mem : Nat → T) (start len : Nat) : List T :=
  (List.range len).map (fun j => mem (start + j))

/-- Models struct LinkerSet<T> { start: *const T, stop: *const T,
slice: &'static [T] }. -/
structure LinkerSet (T : Type) where
  start : Nat
  stop : Nat
  slice : List T
deriving DecidableEq, Repr

/-- Models LinkerSet::new: asserts start < stop, then materializes the
slice via offset_from / try_into().unwrap() / from_raw_parts.  Either
panic (the assertion or the unwrap) is the none result. -/
def LinkerSet.new {T : Type} (mem : Nat → T) (start stop : Nat) :
    Option (LinkerSet T) :=
  if start < stop then
    match offsetToLen ((stop : Int) - (start : Int)) with
    | some len => some ⟨start, stop, fromRawParts mem start len⟩
    | none => none
  else none

/-- Models LinkerSet::iter: unsafe { LinkerSetIter::new(self.start, self.stop) }. -/
def LinkerSet.iter {T : Type} (s : LinkerSet T) : Option LinkerSetIter :=
  LinkerSetIter.new s.start s.stop

/-- Models LinkerSet::len: self.slice.len(). -/
def LinkerSet.len {T : Type} (s : LinkerSet T) : Nat :=
  s.slice.length

/-- Models LinkerSet::is_empty: self.start == self.stop. -/
def LinkerSet.is_empty {T : Type} (s : LinkerSet T) : Bool :=
  s.start == s.stop

/-- Models the Index impl for LinkerSet at a usize position:
self.slice.index(i), whose out-of-bounds panic is the none result. -/
def LinkerSet.index {T : Type} (s : LinkerSet T) (i : Nat) : Option T :=
  s.slice.get? i

/-- The standard index types I for which Rust std provides
impl SliceIndex<[T]> for I; needed to interpret the bound
I: SliceIndex<[T], Output = T> written on the Index impl in the source. -/
inductive SliceIndexKind
  | usize
  | range
  | rangeTo
  | rangeFrom
  | rangeFull
  | rangeInclusive
  | rangeToInclusive
deriving DecidableEq, Repr

/-- The associated Output type of a SliceIndex impl over [T]: a single
element T or a subslice [T]. -/
inductive SliceOutput
  | element
  | subslice
deriving DecidableEq, Repr

/-- The Output type of each std SliceIndex impl over [T]: usize yields a
single element; every range form yields a subslice (Rust std:
impl SliceIndex<[T]> for usize has type Output = T, and the impls for
Range, RangeTo, RangeFrom, RangeFull, RangeInclusive, RangeToInclusive
all have type Output = [T]). -/
def sliceIndexOutput : SliceIndexKind → SliceOutput
  | .usize => .element
  | _ => .subslice

/-- Whether the bound on the source impl
impl<T, I> Index<I> for LinkerSet<T> where I: SliceIndex<[T], Output = T>
admits an index of the given kind: it does exactly when that kind has
Output = T. -/
def linkerSetIndexAccepts (k : SliceIndexKind) : Bool :=
  sliceIndexOutput k = SliceOutput.element

/-- Attributes appearing on the items emitted by the set_entry macro. -/
inductive EmittedAttr
  | linkSection (sectionName : String)
  | usedAttr
  | cfgDebugOrTest
  | allowUnused
deriving DecidableEq, Repr

/-- Body of the emitted probe function: eqCmp lhs rhs models the emitted
comparison lhs == rhs (wrapped in an unsafe block in the generated code),
which is a pure comparison expression containing no function call. -/
inductive FnBody
  | eqCmp (lhs rhs : String)
deriving DecidableEq, Repr

/-- An item emitted by the set_entry macro expansion: the original static
declaration (with placement attributes) or a function declaration. -/
inductive EmittedItem
  | staticItem (attrs : List EmittedAttr) (ident : String) (expr : String)
  | fnItem (attrs : List EmittedAttr) (name : String) (body : FnBody)
deriving DecidableEq, Repr

/-- The start boundary symbol name produced by set_declare for a set,
as referenced by the probe: __start_set_<set>. -/
def startSetSymbol (set : String) : String :=
  "__start_set_" ++ set

/-- The probe function name built by set_entry:
format_ident!("__set_{}_typecheck_{}", set, decl.ident.to_string().to_lowercase()). -/
def probeName (set ident : String) : String :=
  "__set_" ++ set ++ "_typecheck_" ++ ident.toLower

/-- Models the expansion of #[set_entry(set)] applied to a static named
ident with value expression expr: the original static, annotated with
#[unsafe(link_section = "set_<set>")] and #[used], followed by the probe
function #[cfg(any(debug_assertions, test))] #[allow(unused)]
fn <probeName>() -> bool { unsafe { <set>::__start_set_<set> == <expr> } }. -/
def set_entry (set ident expr : String) : List EmittedItem :=
  [ .staticItem [.linkSection ("set_" ++ set), .usedAttr] ident expr,
    .fnItem [.cfgDebugOrTest, .allowUnused] (probeName set ident)
      (.eqCmp (set ++ "::" ++ startSetSymbol set) expr) ]

/-- Whether one attribute lets an item be compiled in a configuration with
the given debug_assertions and test flags: cfg(any(debug_assertions, test))
is active iff one of the flags is on; the other attributes never exclude
an item. -/
def cfgActive (debugAssertions test : Bool) : EmittedAttr → Bool
  | .cfgDebugOrTest => debugAssertions || test
  | _ => true

/-- Whether an emitted item is compiled in a configuration with the given
debug_assertions and test flags: all its attributes must be active. -/
def itemCompiled (debugAssertions test : Bool) : EmittedItem → Bool
  | .staticItem attrs _ _ => attrs.all (cfgActive debugAssertions test)
  | .fnItem attrs _ _ => attrs.all (cfgActive debugAssertions test)

/-- A concrete memory used by the witness theorems. -/
def demoMem : Nat → Nat :=
  fun a => 2 * a + 1

lemma offsetToLen_of_le {a b : Nat} (h : a ≤ b) :
    offsetToLen ((b : Int) - (a : Int)) = some (b - a) := by
  unfold offsetToLen
  rw [if_neg (by omega)]
  congr 1
  omega

lemma offsetToLen_of_lt {a b : Nat} (h : b < a) :
    offsetToLen ((b : Int) - (a : Int)) = none := by
  unfold offsetToLen
  rw [if_pos (by omega)]

lemma pull_of_eq {T : Type} (mem : Nat → T) (it : LinkerSetIter)
    (h : it.next = it.stop) : it.pull mem = (none, it) := by
  simp [LinkerSetIter.pull, h]

lemma pull_of_ne {T : Type} (mem : Nat → T) (it : LinkerSetIter)
    (h : it.next ≠ it.stop) :
    it.pull mem = (some (mem it.next), ⟨it.next + 1, it.stop⟩) := by
  simp [LinkerSetIter.pull, h]

lemma advance_spec {T : Type} (mem : Nat → T) (it : LinkerSetIter)
    (h : it.next ≤ it.stop) (k : Nat) :
    (it.advance mem k).stop = it.stop ∧
      (it.advance mem k).next = min (it.next + k) it.stop := by
  induction k with
  | zero =>
    refine ⟨rfl, ?_⟩
    simp [LinkerSetIter.advance]
    omega
  | succ k ih =>
    obtain ⟨hs, hn⟩ := ih
    have hstep : it.advance mem (k + 1) = ((it.advance mem k).pull mem).2 := rfl
    by_cases hc : (it.advance mem k).next = (it.advance mem k).stop
    · rw [hstep, pull_of_eq mem _ hc]
      rw [hs, hn] at hc
      refine ⟨hs, ?_⟩
      rw [hn]
      omega
    · rw [hstep, pull_of_ne mem _ hc]
      rw [hs, hn] at hc
      refine ⟨hs, ?_⟩
      show (it.advance mem k).next + 1 = min (it.next + (k + 1)) it.stop
      rw [hn]
      omega

lemma len_eq_some_iff (it : LinkerSetIter) (L : Nat) :
    it.len = some L ↔ it.next ≤ it.stop ∧ it.stop - it.next = L := by
  constructor
  · intro h
    by_cases hc : it.next ≤ it.stop
    · rw [LinkerSetIter.len, offsetToLen_of_le hc] at h
      exact ⟨hc, Option.some_inj.mp h⟩
    · rw [LinkerSetIter.len, offsetToLen_of_lt (by omega)] at h
      exact absurd h (by simp)
  · rintro ⟨h1, h2⟩
    rw [LinkerSetIter.len, offsetToLen_of_le h1, h2]

lemma new_eq_some_iff {T : Type} (mem : Nat → T) (start stop : Nat)
    (s : LinkerSet T) :
    LinkerSet.new mem start stop = some s ↔
      start < stop ∧ s = ⟨start, stop, fromRawParts mem start (stop - start)⟩ := by
  constructor
  · intro h
    by_cases hc : start < stop
    · refine ⟨hc, ?_⟩
      rw [LinkerSet.new, if_pos hc, offsetToLen_of_le (le_of_lt hc)] at h
      exact (Option.some_inj.mp h).symm
    · rw [LinkerSet.new, if_neg hc] at h
      exact absurd h (by simp)
  · rintro ⟨h1, h2⟩
    rw [LinkerSet.new, if_pos h1, offsetToLen_of_le (le_of_lt h1), h2]

lemma fromRawParts_length {T : Type} (mem : Nat → T) (start len : Nat) :
    (fromRawParts mem start len).length = len := by
  simp [fromRawParts]

lemma fromRawParts_get? {T : Type} (mem : Nat → T) (start len i : Nat) :
    (fromRawParts mem start len).get? i =
      if i < len then some (mem (start + i)) else none := by
  by_cases h : i < len
  · rw [if_pos h]
    rw [List.get?_eq_get (by simpa [fromRawParts_length] using h)]
    simp [fromRawParts]
  · rw [if_neg h]
    exact List.get?_eq_none.mpr (by simpa [fromRawParts_length] using Nat.le_of_not_lt h)

/-- Claim C1 (code evaluated at the failing input): constructing a
Registry Handle from equal boundary addresses trips the assertion
assert!(start < stop) in LinkerSet::new — modelled as the none result —
instead of yielding an empty handle of length 0 as the claim states. -/
theorem c1_empty_construction_aborts :
    LinkerSet.new demoMem 4096 4096 = none := by
  rfl

/-- Claim C2: one pull of LinkerSetIter::next: if the cursor equals the
stop address it returns None and leaves the state unchanged; otherwise it
returns the element of type T stored at the cursor and advances the
cursor by exactly one element width. -/
theorem c2_pull_step {T : Type} (mem : Nat → T) (it : LinkerSetIter) :
    (it.next = it.stop → it.pull mem = (none, it)) ∧
      (it.next ≠ it.stop →
        it.pull mem = (some (mem it.next), ⟨it.next + 1, it.stop⟩)) :=
  ⟨pull_of_eq mem it, pull_of_ne mem it⟩

theorem c2_pull_step_witness :
    LinkerSetIter.pull ⟨5, 5⟩ demoMem = (none, ⟨5, 5⟩) ∧
      LinkerSetIter.pull ⟨3, 5⟩ demoMem = (some (demoMem 3), ⟨4, 5⟩) :=
  ⟨(c2_pull_step demoMem ⟨5, 5⟩).1 rfl,
   (c2_pull_step demoMem ⟨3, 5⟩).2 (by decide)⟩

/-- Claim C3: for every iterator state with cursor ≤ stop, len returns
exactly stop - cursor (the element distance, i.e. the byte distance
divided by the element size) without changing the state; count returns
the same value, and size_hint returns it as both the lower and the upper
bound. -/
theorem c3_len_exact (it : LinkerSetIter) (h : it.next ≤ it.stop) :
    it.len = some (it.stop - it.next) ∧
      it.count = some (it.stop - it.next) ∧
      it.size_hint = some (it.stop - it.next, some (it.stop - it.next)) := by
  have hl : it.len = some (it.stop - it.next) :=
    (len_eq_some_iff it _).mpr ⟨h, rfl⟩
  exact ⟨hl, hl, by rw [LinkerSetIter.size_hint, hl]⟩

theorem c3_len_exact_witness :
    LinkerSetIter.len ⟨3, 5⟩ = some 2 ∧
      LinkerSetIter.count ⟨3, 5⟩ = some 2 ∧
      LinkerSetIter.size_hint ⟨3, 5⟩ = some (2, some 2) :=
  c3_len_exact ⟨3, 5⟩ (by decide)

/-- Claim C5: for every pair of addresses with start > stop, constructing
a Boundary Iterator (LinkerSetIter::new) or a Registry Handle
(LinkerSet::new) fails the assertion assert!(start < stop) — an abort,
modelled as the none result — and never produces an iterator or handle. -/
theorem c5_bad_order_aborts {T : Type} (mem : Nat → T) (start stop : Nat)
    (h : stop < start) :
    LinkerSetIter.new start stop = none ∧ LinkerSet.new mem start stop = none := by
  constructor
  · rw [LinkerSetIter.new, if_neg (by omega)]
  · rw [LinkerSet.new, if_neg (by omega)]

theorem c5_bad_order_aborts_witness :
    LinkerSetIter.new 5 3 = none ∧ LinkerSet.new demoMem 5 3 = none :=
  c5_bad_order_aborts demoMem 5 3 (by decide)

/-- Claim C4: for every iterator whose starting length is L, the first L
pulls each yield an element, and the (L+1)-th and every later pull report
exhaustion: once the cursor reaches stop the iterator never yields again
(fused behavior). -/
theorem c4_fused {T : Type} (mem : Nat → T) (it : LinkerSetIter) (L : Nat)
    (h : it.len = some L) :
    (∀ k, k < L → (((it.advance mem k).pull mem).1).isSome = true) ∧
      (∀ k, L ≤ k → ((it.advance mem k).pull mem).1 = none) := by
  obtain ⟨hle, hL⟩ := (len_eq_some_iff it L).mp h
  constructor
  · intro k hk
    obtain ⟨hs, hn⟩ := advance_spec mem it hle k
    rw [pull_of_ne mem _ (by rw [hs, hn]; omega)]
    rfl
  · intro k hk
    obtain ⟨hs, hn⟩ := advance_spec mem it hle k
    rw [pull_of_eq mem _ (by rw [hs, hn]; omega)]

theorem c4_fused_witness :
    ((((⟨10, 12⟩ : LinkerSetIter).advance demoMem 1).pull demoMem).1).isSome = true ∧
      (((⟨10, 12⟩ : LinkerSetIter).advance demoMem 5).pull demoMem).1 = none :=
  ⟨(c4_fused demoMem ⟨10, 12⟩ 2 (by decide)).1 1 (by decide),
   (c4_fused demoMem ⟨10, 12⟩ 2 (by decide)).2 5 (by decide)⟩

/-- Claim C6: for every constructed handle and every index i with
i < len(), indexing at i returns exactly the value that the i-th pull of
a full iteration of the handle yields; indexing at i ≥ len() is the
bounds-check fault (none), not a wrong answer. -/
theorem c6_index_iter_agree {T : Type} (mem : Nat → T) (start stop : Nat)
    (s : LinkerSet T) (hs : LinkerSet.new mem start stop = some s)
    (it : LinkerSetIter) (hit : s.iter = some it) (i : Nat) :
    (i < s.len →
      s.index i = ((it.advance mem i).pull mem).1 ∧ (s.index i).isSome = true) ∧
      (s.len ≤ i → s.index i = none) := by
  obtain ⟨hlt, hseq⟩ := (new_eq_some_iff mem start stop s).mp hs
  subst hseq
  have hit2 : it = ⟨start, stop⟩ := by
    rw [LinkerSet.iter] at hit
    dsimp only at hit
    rw [LinkerSetIter.new, if_pos hlt] at hit
    exact (Option.some_inj.mp hit).symm
  subst hit2
  have hlen :
      (⟨start, stop, fromRawParts mem start (stop - start)⟩ : LinkerSet T).len =
        stop - start := by
    rw [LinkerSet.len]
    exact fromRawParts_length mem start (stop - start)
  have hidx : ∀ j : Nat,
      (⟨start, stop, fromRawParts mem start (stop - start)⟩ : LinkerSet T).index j =
        if j < stop - start then some (mem (start + j)) else none := by
    intro j
    rw [LinkerSet.index]
    exact fromRawParts_get? mem start (stop - start) j
  constructor
  · intro hi
    rw [hlen] at hi
    obtain ⟨has, han⟩ := advance_spec mem ⟨start, stop⟩ (le_of_lt hlt) i
    dsimp only at has han
    have hne : ((⟨start, stop⟩ : LinkerSetIter).advance mem i).next ≠
        ((⟨start, stop⟩ : LinkerSetIter).advance mem i).stop := by
      rw [has, han]
      omega
    rw [pull_of_ne mem _ hne]
    have haddr : ((⟨start, stop⟩ : LinkerSetIter).advance mem i).next = start + i := by
      rw [han]
      omega
    rw [haddr, hidx i, if_pos hi]
    exact ⟨rfl, rfl⟩
  · intro hi
    rw [hlen] at hi
    rw [hidx i, if_neg (by omega)]

theorem c6_index_iter_agree_witness :
    LinkerSet.index (⟨0, 2, [1, 3]⟩ : LinkerSet Nat) 1 =
        (((⟨0, 2⟩ : LinkerSetIter).advance demoMem 1).pull demoMem).1 ∧
      LinkerSet.index (⟨0, 2, [1, 3]⟩ : LinkerSet Nat) 3 = none :=
  ⟨((c6_index_iter_agree demoMem 0 2 ⟨0, 2, [1, 3]⟩ (by decide) ⟨0, 2⟩ (by decide)
      1).1 (by decide)).1,
   (c6_index_iter_agree demoMem 0 2 ⟨0, 2, [1, 3]⟩ (by decide) ⟨0, 2⟩ (by decide)
      3).2 (by decide)⟩

/-- Claim C7 (counterexample): indexing a LinkerSet by a sub-range is not
supported: the bound I: SliceIndex<[T], Output = T> on the Index impl
rejects Range, whose SliceIndex Output over [T] is the subslice type [T],
not the element type T. -/
theorem c7_range_index_rejected :
    linkerSetIndexAccepts SliceIndexKind.range = false := by
  rfl

/-- Claim C7 (amended): the Index impl for LinkerSet accepts exactly the
single-position index kind (usize); every sub-range index kind is
rejected by its Output = T bound, so sub-range indexing is not available
on a handle. -/
theorem c7_only_usize_index (k : SliceIndexKind) :
    linkerSetIndexAccepts k = true ↔ k = SliceIndexKind.usize := by
  cases k <;> simp [linkerSetIndexAccepts, sliceIndexOutput]

/-- Claim C8: for every constructed handle, is_empty() is true iff
start == stop, and equally iff len() == 0: the pointer-equality test and
the slice-length test agree (on every handle the constructor can produce,
all three are in fact false, since construction asserts start < stop). -/
theorem c8_is_empty_agree {T : Type} (mem : Nat → T) (start stop : Nat)
    (s : LinkerSet T) (hs : LinkerSet.new mem start stop = some s) :
    ((s.is_empty = true) ↔ s.start = s.stop) ∧
      ((s.is_empty = true) ↔ s.len = 0) := by
  obtain ⟨hlt, hseq⟩ := (new_eq_some_iff mem start stop s).mp hs
  constructor
  · rw [LinkerSet.is_empty]
    exact beq_iff_eq
  · rw [hseq]
    simp only [LinkerSet.is_empty, LinkerSet.len, fromRawParts_length, beq_iff_eq]
    omega

theorem c8_is_empty_agree_witness :
    ((LinkerSet.is_empty (⟨0, 2, [1, 3]⟩ : LinkerSet Nat) = true) ↔
        (⟨0, 2, [1, 3]⟩ : LinkerSet Nat).start = (⟨0, 2, [1, 3]⟩ : LinkerSet Nat).stop) ∧
      ((LinkerSet.is_empty (⟨0, 2, [1, 3]⟩ : LinkerSet Nat) = true) ↔
        LinkerSet.len (⟨0, 2, [1, 3]⟩ : LinkerSet Nat) = 0) :=
  c8_is_empty_agree demoMem 0 2 ⟨0, 2, [1, 3]⟩ (by decide)

/-- Claim C9: for every tagged entry, the set_entry expansion emits,
beside the original static declaration (placed in the set section and
marked used), exactly one auxiliary function declaration — and no call to
it — that is compiled iff debug_assertions or test is on, whose body is
the comparison of the registry start boundary symbol with the entry value
expression, and whose name is "__set_" ++ set ++ "_typecheck_" ++ the
entry identifier lower-cased. -/
theorem c9_probe_emission (set ident expr : String) :
    ∃ attrs body,
      set_entry set ident expr =
        [EmittedItem.staticItem [.linkSection ("set_" ++ set), .usedAttr] ident expr,
         EmittedItem.fnItem attrs (probeName set ident) body] ∧
      probeName set ident = "__set_" ++ set ++ "_typecheck_" ++ ident.toLower ∧
      body = FnBody.eqCmp (set ++ "::" ++ startSetSymbol set) expr ∧
      (∀ d t : Bool,
        itemCompiled d t (EmittedItem.fnItem attrs (probeName set ident) body) =
          (d || t)) := by
  refine ⟨[.cfgDebugOrTest, .allowUnused],
    .eqCmp (set ++ "::" ++ startSetSymbol set) expr, rfl, rfl, rfl, ?_⟩
  intro d t
  cases d <;> cases t <;> rfl

/-- Claim C10: every iterator produced by LinkerSetIter::new satisfies
cursor ≤ stop, every pull preserves cursor ≤ stop, and along any run from
a freshly constructed iterator the unsafe dereference inside next only
ever reads an address in the half-open range from start (inclusive) to
stop (exclusive). -/
theorem c10_cursor_invariant {T : Type} (mem : Nat → T) (start stop : Nat)
    (it : LinkerSetIter) (h : LinkerSetIter.new start stop = some it) :
    it.next ≤ it.stop ∧
      (∀ j : LinkerSetIter, j.next ≤ j.stop →
        (((j.pull mem).2).next ≤ ((j.pull mem).2).stop)) ∧
      (∀ k a, (it.advance mem k).readAddr = some a → start ≤ a ∧ a < stop) := by
  have hlt : start < stop ∧ it = ⟨start, stop⟩ := by
    by_cases hc : start < stop
    · rw [LinkerSetIter.new, if_pos hc] at h
      exact ⟨hc, (Option.some_inj.mp h).symm⟩
    · rw [LinkerSetIter.new, if_neg hc] at h
      exact absurd h (by simp)
  obtain ⟨hc, hit⟩ := hlt
  subst hit
  refine ⟨by dsimp only; omega, ?_, ?_⟩
  · intro j hj
    by_cases hjc : j.next = j.stop
    · rw [pull_of_eq mem j hjc]
      exact hj
    · rw [pull_of_ne mem j hjc]
      show j.next + 1 ≤ j.stop
      omega
  · intro k a ha
    obtain ⟨has, han⟩ :=
      advance_spec mem ⟨start, stop⟩ (by dsimp only; omega) k
    dsimp only at has han
    rw [LinkerSetIter.readAddr] at ha
    by_cases hstop : ((⟨start, stop⟩ : LinkerSetIter).advance mem k).next =
        ((⟨start, stop⟩ : LinkerSetIter).advance mem k).stop
    · rw [if_pos hstop] at ha
      exact absurd ha (by simp)
    · rw [if_neg hstop] at ha
      have haa : ((⟨start, stop⟩ : LinkerSetIter).advance mem k).next = a :=
        Option.some_inj.mp ha
      rw [has, han] at hstop
      rw [han] at haa
      omega

theorem c10_cursor_invariant_witness :
    ((⟨3, 5⟩ : LinkerSetIter).next ≤ (⟨3, 5⟩ : LinkerSetIter).stop) ∧
      ((((⟨4, 5⟩ : LinkerSetIter).pull demoMem).2).next ≤
        (((⟨4, 5⟩ : LinkerSetIter).pull demoMem).2).stop) ∧
      (3 ≤ 4 ∧ 4 < 5) :=
  ⟨(c10_cursor_invariant demoMem 3 5 ⟨3, 5⟩ (by decide)).1,
   (c10_cursor_invariant demoMem 3 5 ⟨3, 5⟩ (by decide)).2.1 ⟨4, 5⟩ (by decide),
   (c10_cursor_invariant demoMem 3 5 ⟨3, 5⟩ (by decide)).2.2 1 4 (by decide)⟩
